import Mathlib

/-!
Shallow embedding of the `gaodun` course extractor (package `gaodun` of
`hydrz/lux`) together with proofs about it.

Go strings are byte sequences; every character this development manipulates
(banned filename characters, spaces, dots, digits, URL pattern literals) is
ASCII, where Go's byte-wise operations and a character-wise model agree.
Strings are therefore modelled as `List Char`.

External effects (HTTP calls of the `APIClient`, M3U8 manifest expansion)
are modelled as oracle functions gathered in an `Env` record; the pure
decision logic applied to their decoded results is translated directly from
the source.
-/

/-- Go strings, modelled character-wise (all relevant characters are ASCII). -/
abbrev Str := List Char

/- ### Data model (types.go) -/

/-- Resource record (struct `Resource`). Fields not read by the extractor
logic (category, description, uri, liveStatus, fileSizeHuman, duration) are
omitted from the model. -/
structure Resource where
  id : Int
  title : Str
  discriminator : Str
  extension : Str
  mime : Str
  path : Str
  videoID : Str
  filesize : Str
  liveUrlPlayBackApp : Str
  deriving DecidableEq, Repr

/-- One video quality entry (struct `VideoQuality`); `resolution` is the
nested struct's `resolution` field, the only one the extractor reads. -/
structure VideoQuality where
  available : Int
  fileSize : Int
  isWatermark : Int
  path : Str
  resolution : Str
  deriving DecidableEq, Repr

/-- Video resource info (struct `VideoResource`). Go's
`List map[string]VideoQuality` is modelled as an association list; the
extractor only iterates it. -/
structure VideoResource where
  defaultType : Str
  duration : Int
  encrypt : Int
  list : List (Str × VideoQuality)
  title : Str
  deriving DecidableEq, Repr

/-- Syllabus node (struct `Syllabus`); recursive through `children`.
The ep-study-only mirror fields (`item_id` etc.) are not read by the
extractor and are omitted. -/
inductive Syllabus : Type where
  | mk : (id : Int) → (name : Str) → (isResource : Int) →
      (children : List Syllabus) →
      (preClassResource : List Resource) →
      (inClassMainResource : List Resource) →
      (inClassAssistResource : List Resource) →
      (afterClassResource : List Resource) → Syllabus

def Syllabus.name : Syllabus → Str
  | .mk _ n _ _ _ _ _ _ => n

def Syllabus.isResource : Syllabus → Int
  | .mk _ _ r _ _ _ _ _ => r

def Syllabus.children : Syllabus → List Syllabus
  | .mk _ _ _ c _ _ _ _ => c

/-- Gradation record (struct `Gradation`). `id` and `syllabusID` are
`json.Number`, i.e. strings; the Go pointer `GSyllabus *Syllabus` is an
`Option`, and the Go slice `EpSyllabus []Syllabus` is `Option (List _)` so
that a nil slice is distinguished from a present empty one. -/
inductive Gradation : Type where
  | mk : (id : Str) → (name : Str) → (syllabusID : Str) →
      (children : List Gradation) →
      (gSyllabus : Option Syllabus) →
      (epSyllabus : Option (List Syllabus)) → Gradation

def Gradation.id : Gradation → Str
  | .mk i _ _ _ _ _ => i

def Gradation.name : Gradation → Str
  | .mk _ n _ _ _ _ => n

def Gradation.gSyllabus : Gradation → Option Syllabus
  | .mk _ _ _ _ g _ => g

def Gradation.epSyllabus : Gradation → Option (List Syllabus)
  | .mk _ _ _ _ _ e => e

/-- Common envelope of every Gaodun API response (struct `APIResponse[T]`). -/
structure APIResponse (T : Type) where
  status : Int
  message : Str
  result : T
  deriving DecidableEq, Repr

/-- Result payload of the `GLiveCheck` call: the anonymous one-field
result struct declared inside `client.GLiveCheck`. -/
structure GLiveCheckResult where
  code : Str
  deriving DecidableEq, Repr

/- ### Output model (package extractors: Data / Stream / Part) -/

namespace extractors

/-- One fetchable unit (`extractors.Part`). -/
structure Part where
  url : Str
  size : Int
  ext : Str
  deriving DecidableEq, Repr

/-- One quality/rendition (`extractors.Stream`); `parts` keeps order. -/
structure Stream where
  id : Str
  parts : List Part
  quality : Str
  size : Int
  ext : Str
  needMux : Bool
  deriving DecidableEq, Repr

/-- Output kind: `extractors.DataTypeVideo` / `extractors.DataTypeDocument`. -/
inductive DataType : Type where
  | video
  | document
  deriving DecidableEq, Repr

/-- Output descriptor (`extractors.Data`); the Go stream map is an
association list keyed by stream id. -/
structure Data where
  site : Str
  title : Str
  dataType : DataType
  streams : List (Str × Stream)
  url : Str
  deriving DecidableEq, Repr

end extractors

/- ### Sanitizer (sanitizeFileName) -/

/-- The nine characters `sanitizeFileName` replaces (keys of the Go
`replacements` map). -/
def bannedChars : Str := ['/', '\\', ':', '*', '?', '\"', '<', '>', '|']

/-- Model of `strings.ReplaceAll(l, old, "-")` for a single-character pattern. -/
def replaceAllChar (l : Str) (old : Char) : Str :=
  l.map (fun c => if c = old then '-' else c)

/-- Membership of the cutset `" ."` of `strings.Trim`. -/
def isSpaceOrDot (c : Char) : Bool := c = ' ' || c = '.'

/-- Model of `strings.TrimLeft(l, " .")`. -/
def trimLeft (l : Str) : Str := l.dropWhile isSpaceOrDot

/-- Model of `strings.TrimRight(l, " .")`. -/
def trimRight (l : Str) : Str := (l.reverse.dropWhile isSpaceOrDot).reverse

/-- Model of `strings.Trim(l, " .")`. -/
def trimCut (l : Str) : Str := trimRight (trimLeft l)

/-- Function `sanitizeFileName`, parametrised by the order in which the banned
characters are replaced: Go ranges over a map, whose iteration order
varies between runs, so the order is an explicit argument here and the
entry point below fixes one order. -/
def sanitizeWith (order : Str) (name : Str) : Str :=
  let result := order.foldl replaceAllChar name
  let result := trimCut result
  if result.length > 100 then trimRight (result.take 100) else result

/-- Entry point `sanitizeFileName` (method on `extractor`; it does not read the
receiver). -/
def sanitizeFileName (name : Str) : Str := sanitizeWith bannedChars name

example : sanitizeFileName "File/With\\Invalid:Characters*?\"<>|".toList
    = "File-With-Invalid-Characters------".toList := by decide

example : sanitizeFileName "   File with spaces   ".toList
    = "File with spaces".toList := by decide

/- ### Gateway response handling (client.go)

Each `client` method performs transport, unmarshals the body into an
`APIResponse`, and then applies a status check to the decoded response.
Transport and JSON decoding are outside the model; the functions below are
the per-call handling of an already decoded response, translated from the
source. -/

namespace client

/-- Status handling of `client.GStudy`: error on `Status != 0`. -/
def GStudy (r : APIResponse (List Gradation)) : Except Str (List Gradation) :=
  if r.status ≠ 0 then .error ("API error: ".toList ++ r.message)
  else .ok r.result

/-- Status handling of `client.GStudySyllabus`: error on `Status != 0`. -/
def GStudySyllabus (r : APIResponse Syllabus) : Except Str Syllabus :=
  if r.status ≠ 0 then .error ("API error: ".toList ++ r.message)
  else .ok r.result

/-- Status handling of `client.EpStudy`: error on `Status != 0`. -/
def EpStudy (r : APIResponse (List Gradation)) : Except Str (List Gradation) :=
  if r.status ≠ 0 then .error ("API error: ".toList ++ r.message)
  else .ok r.result

/-- Status handling of `client.EpStudySyllabus`: error on `Status != 0`,
then extraction of the `items` field from the result map (the two-step
marshal/unmarshal of `items` into `[]Syllabus` is modelled as
`Option (List Syllabus)`: `none` when `items` is absent or ill-shaped). -/
def EpStudySyllabus (r : APIResponse (Option (List Syllabus))) :
    Except Str (List Syllabus) :=
  if r.status ≠ 0 then .error ("API error: ".toList ++ r.message)
  else
    match r.result with
    | none => .error "no items found in ep syllabus response".toList
    | some items => .ok items

/-- Status handling of `client.VideoResource`: error on `Status != 200`. -/
def VideoResource (r : APIResponse VideoResource) : Except Str VideoResource :=
  if r.status ≠ 200 then .error ("API error: ".toList ++ r.message)
  else .ok r.result

/-- Status handling of `client.GLiveCheck`: error on `Status != 200`,
else the `code` field of the result. -/
def GLiveCheck (r : APIResponse GLiveCheckResult) : Except Str Str :=
  if r.status ≠ 200 then .error ("API error: ".toList ++ r.message)
  else .ok r.result.code

end client

/- ### Locator (extractCourseID, extractRoomIDAndToken)

Go's `regexp` package is RE2 with leftmost-first matching. Every pattern
used by the extractor is a literal/character-class pattern in which no
class contains the character that follows it, so a match at a given
position is unique and its `+` groups capture the maximal run; the
functions below scan for the leftmost position at which the pattern
matches, which coincides with `FindStringSubmatch`. -/

/-- Strips `pre` from the front of `l` if it is a prefix. -/
def stripPre (pre l : Str) : Option Str :=
  if l.take pre.length = pre then some (l.drop pre.length) else none

/-- The literal `course_id=` of the query-parameter pattern. -/
def paramKey1 : Str := ['c', 'o', 'u', 'r', 's', 'e', '_', 'i', 'd', '=']

/-- The literal `courseId=` of the query-parameter pattern. -/
def paramKey2 : Str := ['c', 'o', 'u', 'r', 's', 'e', 'I', 'd', '=']

/-- The literal `/course/` of the path pattern. -/
def pathKey : Str := ['/', 'c', 'o', 'u', 'r', 's', 'e', '/']

/-- Matches `key(\d+)` at the head of `l`, returning the digit capture. -/
def matchKeyAt (key l : Str) : Option Str :=
  match stripPre key l with
  | none => none
  | some rest =>
    let digits := rest.takeWhile Char.isDigit
    if digits = [] then none else some digits

/-- Matches `(?:course_id|courseId)=(\d+)` at the head of `l` (at a fixed
position at most one alternative can match: the literals differ). -/
def matchParamAt (l : Str) : Option Str :=
  match matchKeyAt paramKey1 l with
  | some d => some d
  | none => matchKeyAt paramKey2 l

/-- Leftmost match of a positional matcher, as `FindStringSubmatch`. -/
def findFirst (m : Str → Option Str) : Str → Option Str
  | [] => none
  | c :: cs =>
    match m (c :: cs) with
    | some r => some r
    | none => findFirst m cs

/-- Locator `extractCourseID`: query parameter `course_id`/`courseId` first, then
path segment `/course/<digits>`, else an error. -/
def extractCourseID (url : Str) : Except Str Str :=
  match findFirst matchParamAt url with
  | some n => .ok n
  | none =>
    match findFirst (matchKeyAt pathKey) url with
    | some n => .ok n
    | none => .error "course ID not found in URL".toList

example : extractCourseID "https://gaodun.com/course?course_id=17244".toList
    = .ok "17244".toList := rfl

example : extractCourseID "https://gaodun.com/course?courseId=17244".toList
    = .ok "17244".toList := rfl

example : extractCourseID "https://gaodun.com/course/17244".toList
    = .ok "17244".toList := rfl

example : extractCourseID "https://gaodun.com/invalid".toList
    = .error "course ID not found in URL".toList := rfl

/-- Character class `[a-zA-Z0-9]`. -/
def isAlnum (c : Char) : Bool := c.isAlpha || c.isDigit

/-- Character class `[a-zA-Z0-9-]`. -/
def isAlnumDash (c : Char) : Bool := isAlnum c || c = '-'

/-- The literal head of the deep-link pattern in `extractRoomIDAndToken`. -/
def liveKey : Str :=
  "gaodunapp://gd/liveroom/v2/replays/detail?recordId=".toList

/-- Matches the deep-link pattern of `extractRoomIDAndToken` at the head of
`l`, returning the `roomId` and `token` captures (the `recordId` and `did`
captures are discarded, as in the source). -/
def matchLiveAt (l : Str) : Option (Str × Str) :=
  match stripPre liveKey l with
  | none => none
  | some l1 =>
    let recId := l1.takeWhile isAlnum
    if recId = [] then none else
    match stripPre "&did=".toList (l1.drop recId.length) with
    | none => none
    | some l2 =>
      let did := l2.takeWhile isAlnum
      if did = [] then none else
      match stripPre "&roomId=".toList (l2.drop did.length) with
      | none => none
      | some l3 =>
        let room := l3.takeWhile isAlnumDash
        if room = [] then none else
        match stripPre "&token=".toList (l3.drop room.length) with
        | none => none
        | some l4 =>
          let tok := l4.takeWhile isAlnum
          if tok = [] then none else some (room, tok)

/-- Leftmost match of the deep-link pattern. -/
def findLive : Str → Option (Str × Str)
  | [] => none
  | c :: cs =>
    match matchLiveAt (c :: cs) with
    | some r => some r
    | none => findLive cs

/-- Locator `extractRoomIDAndToken`. -/
def extractRoomIDAndToken (url : Str) : Except Str (Str × Str) :=
  match findLive url with
  | some rt => .ok rt
  | none => .error "room ID and token not found in URL".toList

example : extractRoomIDAndToken
    "gaodunapp://gd/liveroom/v2/replays/detail?recordId=r1&did=d1&roomId=room-1&token=tok9".toList
    = .ok ("room-1".toList, "tok9".toList) := rfl

/- ### Schema classifier (isGStudyCourse) -/

/-- Classifier `isGStudyCourse`, as a function of the (possibly failed) result of the
`GStudy` gateway call it makes. Classifies as G-Study exactly when the
first gradation has a non-nil `GSyllabus` and a nil `EpSyllabus`. -/
def isGStudyCourse (fetched : Except Str (List Gradation)) :
    Except Str Bool :=
  match fetched with
  | .error e => .error e
  | .ok gs =>
    match gs with
    | [] => .error "no G-Study course found".toList
    | g :: _ => .ok (g.gSyllabus.isSome && g.epSyllabus.isNone)

/- ### Oracle environment for the resolver and the ep-study walker -/

/-- External calls made during resource resolution and ep-study traversal:
`api.GLiveCheck`, `api.VideoResource` (always called with res `SD` and
channel `0`), `utils.M3u8URLsWithHeaders` (headers fixed to
`api.Headers()`), `api.EpStudy` and `api.EpStudySyllabus`. -/
structure Env where
  gLiveCheck : Str → Str → Except Str Str
  videoResource : Str → Except Str VideoResource
  m3u8URLs : Str → Except Str (List Str)
  epStudy : Str → Except Str (List Gradation)
  epStudySyllabus : Str → Str → Except Str (List Syllabus)

/-- Model of `filepath.Join` restricted to the two-segment, already-clean shapes the
extractor produces. -/
def joinPath (a b : Str) : Str :=
  if a = [] then b else if b = [] then a else a ++ "/".toList ++ b

/-- Digit-run value for `atoi`. -/
def atoiDigits (s : Str) : Option Nat :=
  if s = [] then none
  else if s.all Char.isDigit then
    some (s.foldl (fun acc c => acc * 10 + (c.toNat - 48)) 0)
  else none

/-- Model of `strconv.Atoi` (64-bit overflow is out of the model's scope: no claim
depends on sizes near 2^63). -/
def atoi (s : Str) : Option Int :=
  match s with
  | [] => none
  | '+' :: rest => (atoiDigits rest).map (fun n => (n : Int))
  | '-' :: rest => (atoiDigits rest).map (fun n => -(n : Int))
  | _ => (atoiDigits s).map (fun n => (n : Int))

/-- The site tag every descriptor carries. -/
def siteTag : Str := "高顿教育 gaodun.com".toList

/-- Resolver `processVideoResource`: fetches the quality list for the resource's
video id, builds one Stream per usable quality (skipping a quality that is
unavailable, has an empty path, or whose manifest expansion fails), and
fails with `no available video streams` when no Stream was built. The Go
`streams` map is modelled as an association list built in the (map
iteration) order of `videoRes.list`. -/
def processVideoResource (env : Env) (resource : Resource) (baseDir : Str) :
    Except Str extractors.Data :=
  let videoID := resource.videoID
  match env.videoResource videoID with
  | .error e => .error e
  | .ok videoRes =>
    let streams := videoRes.list.foldl (fun streams qp =>
      let quality := qp.1
      let qualityInfo := qp.2
      if qualityInfo.available ≠ 1 ∨ qualityInfo.path = [] then streams
      else
        match env.m3u8URLs qualityInfo.path with
        | .error _ => streams
        | .ok urls =>
          let parts : List extractors.Part :=
            urls.map (fun url => { url := url, size := 0, ext := "ts".toList })
          let id := resource.videoID ++ "_".toList ++ quality
          streams ++ [(id,
            ({ id := id, parts := parts, quality := qualityInfo.resolution,
               size := qualityInfo.fileSize * 1024, ext := [],
               needMux := false } : extractors.Stream))]) []
    if streams = [] then .error "no available video streams".toList
    else
      let filename := sanitizeFileName resource.title
      let filename :=
        if filename = [] then "video_".toList ++ (toString resource.id).toList
        else filename
      .ok { site := siteTag, title := joinPath baseDir filename,
            dataType := .video, streams := streams,
            url := "gaodun://video/".toList ++ videoID }

/-- Resolver `processNonVideoResource`: document mapping (`lecture_note`). -/
def processNonVideoResource (resource : Resource) (baseDir : Str) :
    Except Str (Option extractors.Data) :=
  if resource.path = [] then .ok none
  else
    let ext :=
      if resource.extension ≠ [] then resource.extension
      else if resource.mime = "application/pdf".toList then "pdf".toList
      else if resource.mime = "application/msword".toList then "doc".toList
      else if resource.mime =
        "application/vnd.openxmlformats-officedocument.wordprocessingml.document".toList
        then "docx".toList
      else "file".toList
    let filename := sanitizeFileName resource.title
    let filename :=
      if filename = [] then "document_".toList ++ (toString resource.id).toList
      else filename
    let size := (atoi resource.filesize).getD 0
    let parts : List extractors.Part :=
      [{ url := resource.path, size := size, ext := ext }]
    let id := (toString resource.id).toList
    let streams : List (Str × extractors.Stream) :=
      [(id, { quality := "Unknown".toList, id := id, parts := parts,
              size := size, ext := ext, needMux := false })]
    .ok (some { site := siteTag, title := joinPath baseDir filename,
                dataType := .document, streams := streams,
                url := resource.path })

/-- Dispatcher `processResource`: dispatch on the discriminator. `live_new` first
parses the deep link (parse failure: skip, no error), then exchanges the
token (exchange failure: skip, no error), then delegates to the video
mapping with the resolved code as video id; `video` delegates directly;
`lecture_note` goes to the document mapping; anything else is skipped. -/
def processResource (env : Env) (resource : Resource) (baseDir : Str) :
    Except Str (Option extractors.Data) :=
  if resource.discriminator = "live_new".toList then
    match extractRoomIDAndToken resource.liveUrlPlayBackApp with
    | .error _ => .ok none
    | .ok (roomID, token) =>
      match env.gLiveCheck roomID token with
      | .error _ => .ok none
      | .ok code =>
        (processVideoResource env { resource with videoID := code } baseDir).map some
  else if resource.discriminator = "video".toList then
    (processVideoResource env resource baseDir).map some
  else if resource.discriminator = "lecture_note".toList then
    processNonVideoResource resource baseDir
  else .ok none

/- ### Ep-study walker -/

/-- Mapping `extractEpStudyResources`: the source is a placeholder that always
returns an empty slice and a nil error. -/
def extractEpStudyResources (_syllabus : Syllabus) (_baseDir : Str) :
    Except Str (List extractors.Data) :=
  .ok []

/-- Walker `extractEpStudySyllabus`: walks the syllabus items; for each item the
children are recursed into, and, when the item's `IsResource` flag is set,
`extractEpStudyResources` is applied to the item itself. The Go version
runs the items concurrently and appends under a mutex in completion order;
the model linearises the appends (children first, then the item's own
resources, then the remaining items). -/
def extractEpStudySyllabus (courseID gradationName : Str) :
    List Syllabus → List extractors.Data
  | [] => []
  | .mk sid sname sisResource schildren spre sinm sina saft :: rest =>
    let childData :=
      if schildren.isEmpty then []
      else extractEpStudySyllabus courseID gradationName schildren
    let resData :=
      if sisResource = 0 then []
      else
        let baseDir := joinPath (joinPath courseID
          (sanitizeFileName gradationName)) (sanitizeFileName sname)
        match extractEpStudyResources
          (.mk sid sname sisResource schildren spre sinm sina saft) baseDir with
        | .error _ => []
        | .ok resourceData => resourceData
    childData ++ resData ++ extractEpStudySyllabus courseID gradationName rest

/-- Walker `extractEpStudyCourse`: fetches the ep-study gradations, then per
gradation (skipping an empty id, and skipping on a failed syllabus fetch)
collects the syllabus items' data. The Go version fans the gradations out
concurrently; the model linearises the appends in gradation order. -/
def extractEpStudyCourse (env : Env) (courseID : Str) :
    Except Str (List extractors.Data) :=
  match env.epStudy courseID with
  | .error e => .error e
  | .ok gradations =>
    .ok (gradations.foldl (fun allData grad =>
      let syllabusID := grad.id
      if syllabusID = [] then allData
      else
        match env.epStudySyllabus courseID syllabusID with
        | .error _ => allData
        | .ok items =>
          allData ++ extractEpStudySyllabus courseID grad.name items) [])

/- ### Measurement helper and concrete fixtures used in the theorems -/

/-- Number of descriptors carried by one resolution result. -/
def descriptorCount (r : Except Str (Option extractors.Data)) : Nat :=
  match r with
  | .ok (some _) => 1
  | _ => 0

/-- Environment in which every external call fails. -/
def failEnv : Env where
  gLiveCheck := fun _ _ => .error "fail".toList
  videoResource := fun _ => .error "fail".toList
  m3u8URLs := fun _ => .error "fail".toList
  epStudy := fun _ => .error "fail".toList
  epStudySyllabus := fun _ _ => .error "fail".toList

/-- A deep link accepted by `extractRoomIDAndToken`. -/
def liveURL0 : Str :=
  "gaodunapp://gd/liveroom/v2/replays/detail?recordId=r1&did=d1&roomId=room-1&token=tok9".toList

/-- A `live_new` resource whose deep link parses. -/
def liveRes0 : Resource where
  id := 7
  title := "t".toList
  discriminator := "live_new".toList
  extension := []
  mime := []
  path := []
  videoID := []
  filesize := []
  liveUrlPlayBackApp := liveURL0

/-- A plain `video` resource. -/
def vidRes0 : Resource where
  id := 9
  title := "t".toList
  discriminator := "video".toList
  extension := []
  mime := []
  path := []
  videoID := "v9".toList
  filesize := []
  liveUrlPlayBackApp := []

/-- A resource with a discriminator none of the three recognized ones. -/
def quizRes0 : Resource where
  id := 3
  title := "t".toList
  discriminator := "quiz".toList
  extension := []
  mime := []
  path := []
  videoID := []
  filesize := []
  liveUrlPlayBackApp := []

/-- A quality list whose only entry is marked unavailable. -/
def vrUnavail : VideoResource where
  defaultType := []
  duration := 0
  encrypt := 0
  list := [("SD".toList,
    { available := 0, fileSize := 10, isWatermark := 0,
      path := "p".toList, resolution := "480p".toList })]
  title := "t".toList

/-- Environment whose video-resource fetch returns `vrUnavail`. -/
def unavailEnv : Env where
  gLiveCheck := fun _ _ => .error "fail".toList
  videoResource := fun _ => .ok vrUnavail
  m3u8URLs := fun _ => .error "fail".toList
  epStudy := fun _ => .error "fail".toList
  epStudySyllabus := fun _ _ => .error "fail".toList

/-- A quality list with one available entry. -/
def vrOneQuality : VideoResource where
  defaultType := []
  duration := 0
  encrypt := 0
  list := [("SD".toList,
    { available := 1, fileSize := 10, isWatermark := 0,
      path := "p".toList, resolution := "480p".toList })]
  title := "t".toList

/-- Environment whose video-resource fetch returns `vrOneQuality` and whose
manifest expansion succeeds with an empty segment list. -/
def emptySegEnv : Env where
  gLiveCheck := fun _ _ => .error "fail".toList
  videoResource := fun _ => .ok vrOneQuality
  m3u8URLs := fun _ => .ok []
  epStudy := fun _ => .error "fail".toList
  epStudySyllabus := fun _ _ => .error "fail".toList

/-- The descriptor produced by `processVideoResource` under `emptySegEnv`
for `vidRes0`: one Stream, zero Parts. -/
def dEmptyParts : extractors.Data where
  site := siteTag
  title := "t".toList
  dataType := .video
  streams := [("v9_SD".toList,
    { id := "v9_SD".toList, parts := [], quality := "480p".toList,
      size := 10240, ext := [], needMux := false })]
  url := "gaodun://video/v9".toList

/- ### Helper lemmas -/

/-- A fold whose step leaves the accumulator unchanged on every element
returns its initial accumulator. -/
theorem foldl_fix {α β : Type} (f : β → α → β) (l : List α) (b : β)
    (h : ∀ acc x, x ∈ l → f acc x = acc) : l.foldl f b = b := by
  induction l generalizing b with
  | nil => rfl
  | cons a t ih =>
    rw [List.foldl_cons, h b a (List.mem_cons_self a t)]
    exact ih b (fun acc x hx => h acc x (List.mem_cons_of_mem a hx))

/-- The ep-study syllabus walker produces no data on any input, because
`extractEpStudyResources` is a placeholder returning an empty list. -/
theorem extractEpStudySyllabus_eq_nil (c g : Str) :
    ∀ items : List Syllabus, extractEpStudySyllabus c g items = []
  | [] => by simp [extractEpStudySyllabus]
  | .mk sid sname sres sch sp si sa sf :: rest => by
    have h1 := extractEpStudySyllabus_eq_nil c g sch
    have h2 := extractEpStudySyllabus_eq_nil c g rest
    simp [extractEpStudySyllabus, extractEpStudyResources, h1, h2]

/- ### Claims -/

/-- C10: for every environment and course, a successful ep-study (schema-B)
extraction returns the empty descriptor list: the schema-B resource mapping
unconditionally returns an empty list, so no syllabus node at any depth
contributes a descriptor. -/
theorem extractEpStudyCourse_empty (env : Env) (courseID : Str) :
    (∃ e, extractEpStudyCourse env courseID = .error e)
    ∨ extractEpStudyCourse env courseID = .ok [] := by
  unfold extractEpStudyCourse
  cases h : env.epStudy courseID with
  | error e => exact Or.inl ⟨e, rfl⟩
  | ok gradations =>
    refine Or.inr (congrArg Except.ok (foldl_fix _ _ _ ?_))
    intro acc grad _
    by_cases hid : grad.id = []
    · simp [hid]
    · simp only [hid, if_neg, ite_false]
      cases hsyl : env.epStudySyllabus courseID grad.id with
      | error e => simp
      | ok items => simp [extractEpStudySyllabus_eq_nil]

/-- C8: resolution of one resource yields at most one descriptor, and a
resource whose discriminator is none of `live_new`, `video`,
`lecture_note` yields no descriptor and no error. -/
theorem processResource_at_most_one :
    (∀ (env : Env) (resource : Resource) (baseDir : Str),
      descriptorCount (processResource env resource baseDir) ≤ 1)
    ∧ (∀ (env : Env) (resource : Resource) (baseDir : Str),
      resource.discriminator ≠ "live_new".toList →
      resource.discriminator ≠ "video".toList →
      resource.discriminator ≠ "lecture_note".toList →
      processResource env resource baseDir = .ok none) := by
  constructor
  · intro env resource baseDir
    unfold descriptorCount
    split <;> omega
  · intro env resource baseDir h1 h2 h3
    unfold processResource
    rw [if_neg h1, if_neg h2, if_neg h3]

/-- Witness for C8 at a concrete unrecognized discriminator. -/
theorem processResource_at_most_one_w :
    quizRes0.discriminator ≠ "live_new".toList
    ∧ processResource failEnv quizRes0 [] = .ok none :=
  ⟨by decide, processResource_at_most_one.2 failEnv quizRes0 []
    (by decide) (by decide) (by decide)⟩

/-- C9: a `live_new` resource whose deep link parses but whose token
exchange fails contributes nothing and surfaces no error. -/
theorem liveNew_exchange_failure_skips (env : Env) (resource : Resource)
    (baseDir room tok e : Str)
    (hdisc : resource.discriminator = "live_new".toList)
    (hparse : extractRoomIDAndToken resource.liveUrlPlayBackApp = .ok (room, tok))
    (hcheck : env.gLiveCheck room tok = .error e) :
    processResource env resource baseDir = .ok none := by
  simp [processResource, hdisc, hparse, hcheck]

/-- Witness for C9: a concrete parsable deep link with a failing exchange. -/
theorem liveNew_exchange_failure_skips_w :
    extractRoomIDAndToken liveRes0.liveUrlPlayBackApp
      = .ok ("room-1".toList, "tok9".toList)
    ∧ processResource failEnv liveRes0 [] = .ok none :=
  ⟨rfl, liveNew_exchange_failure_skips failEnv liveRes0 []
    "room-1".toList "tok9".toList "fail".toList rfl rfl rfl⟩

/-- C7: the schema classifier propagates fetch errors, fails on an empty
gradation list, and otherwise inspects only the first gradation,
classifying as G-Study (true) exactly when it has a non-nil `GSyllabus`
and a nil `EpSyllabus`, and as Ep-Study (false) in every other case. -/
theorem isGStudyCourse_classification :
    (∀ e, isGStudyCourse (.error e) = .error e)
    ∧ isGStudyCourse (.ok []) = .error "no G-Study course found".toList
    ∧ (∀ (g : Gradation) (rest : List Gradation),
        isGStudyCourse (.ok (g :: rest)) = .ok true
          ↔ (g.gSyllabus.isSome && g.epSyllabus.isNone) = true)
    ∧ (∀ (g : Gradation) (rest : List Gradation),
        isGStudyCourse (.ok (g :: rest)) = .ok false
          ↔ (g.gSyllabus.isSome && g.epSyllabus.isNone) = false) := by
  refine ⟨fun e => rfl, rfl, fun g rest => ?_, fun g rest => ?_⟩
  · simp [isGStudyCourse]
  · simp [isGStudyCourse]

/-- C3: when every fetched quality is unavailable, has an empty manifest
path, or fails manifest expansion, `processVideoResource` returns the hard
error `no available video streams`, never a successful result with an
empty stream map. -/
theorem processVideoResource_no_usable_quality (env : Env)
    (resource : Resource) (baseDir : Str) (videoRes : VideoResource)
    (hfetch : env.videoResource resource.videoID = .ok videoRes)
    (hall : ∀ qp ∈ videoRes.list, qp.2.available ≠ 1 ∨ qp.2.path = []
      ∨ ∃ e, env.m3u8URLs qp.2.path = .error e) :
    processVideoResource env resource baseDir
      = .error "no available video streams".toList := by
  simp only [processVideoResource, hfetch]
  split
  next => rfl
  next hne =>
    exfalso
    apply hne
    apply foldl_fix
    intro acc qp hmem
    dsimp only
    by_cases hc : qp.2.available ≠ 1 ∨ qp.2.path = []
    · rw [if_pos hc]
    · rw [if_neg hc]
      rcases hall qp hmem with h | h | ⟨e, h⟩
      · exact absurd (Or.inl h) hc
      · exact absurd (Or.inr h) hc
      · rw [h]

/-- Witness for C3: a concrete quality list whose single entry is marked
unavailable. -/
theorem processVideoResource_no_usable_quality_w :
    unavailEnv.videoResource vidRes0.videoID = .ok vrUnavail
    ∧ processVideoResource unavailEnv vidRes0 []
      = .error "no available video streams".toList :=
  ⟨rfl, processVideoResource_no_usable_quality unavailEnv vidRes0 [] vrUnavail
    rfl (fun qp hmem => by
      rw [show vrUnavail.list = [("SD".toList,
        { available := 0, fileSize := 10, isWatermark := 0,
          path := "p".toList, resolution := "480p".toList })] from rfl,
        List.mem_singleton] at hmem
      subst hmem
      exact Or.inl (by decide))⟩

/-- C2 counterexample: with one available quality whose manifest expansion
succeeds with an empty segment list, `processVideoResource` succeeds and
the returned descriptor's only Stream has an empty part list — refuting
that a returned descriptor always has a Stream with at least one Part. -/
theorem processVideoResource_empty_parts_cex :
    processVideoResource emptySegEnv vidRes0 [] = .ok dEmptyParts
    ∧ dEmptyParts.streams.all (fun p => p.2.parts.isEmpty) = true :=
  ⟨rfl, by decide⟩

/-- C2 (amended): a successful `processVideoResource` always returns a
descriptor with at least one Stream, but a Stream may carry zero Parts
(a manifest expansion succeeding with an empty segment list still yields
a Stream). -/
theorem processVideoResource_success_has_stream (env : Env)
    (resource : Resource) (baseDir : Str) :
    (∃ e, processVideoResource env resource baseDir = .error e)
    ∨ (∃ d, processVideoResource env resource baseDir = .ok d
        ∧ d.streams.isEmpty = false) := by
  cases hfetch : env.videoResource resource.videoID with
  | error e =>
    refine Or.inl ⟨e, ?_⟩
    simp only [processVideoResource, hfetch]
  | ok videoRes =>
    simp only [processVideoResource, hfetch]
    split
    next => exact Or.inl ⟨_, rfl⟩
    next hne =>
      refine Or.inr ⟨_, rfl, ?_⟩
      simpa using hne

/-- C1 counterexample: `client.VideoResource` succeeds exactly on status
200, so a decoded response with status 0 yields an API-status error and a
response with non-zero status 200 yields none — refuting that every
gateway call errors iff the status is non-zero. -/
theorem gateway_status_cex :
    client.VideoResource (APIResponse.mk 0 "m".toList vrUnavail)
      = .error "API error: m".toList
    ∧ client.VideoResource (APIResponse.mk 200 "m".toList vrUnavail)
      = .ok vrUnavail :=
  ⟨rfl, rfl⟩

/-- C1 (amended): `GStudy`, `GStudySyllabus` and `EpStudy` return the
API-status error (carrying the message) iff the decoded status is
non-zero; `EpStudySyllabus` returns the API-status error on any non-zero
status, and on a zero status either the items or the items-missing error;
`VideoResource` and `GLiveCheck` return the API-status error iff the
decoded status differs from 200. -/
theorem gateway_status_checks :
    (∀ r : APIResponse (List Gradation),
      (∃ m, client.GStudy r = .error m) ↔ r.status ≠ 0)
    ∧ (∀ r : APIResponse Syllabus,
      (∃ m, client.GStudySyllabus r = .error m) ↔ r.status ≠ 0)
    ∧ (∀ r : APIResponse (List Gradation),
      (∃ m, client.EpStudy r = .error m) ↔ r.status ≠ 0)
    ∧ (∀ r : APIResponse (Option (List Syllabus)), r.status ≠ 0 →
      client.EpStudySyllabus r = .error ("API error: ".toList ++ r.message))
    ∧ (∀ r : APIResponse (Option (List Syllabus)), r.status = 0 →
      r.result = none →
      client.EpStudySyllabus r
        = .error "no items found in ep syllabus response".toList)
    ∧ (∀ (r : APIResponse (Option (List Syllabus)))
        (items : List Syllabus), r.status = 0 → r.result = some items →
      client.EpStudySyllabus r = .ok items)
    ∧ (∀ r : APIResponse VideoResource,
      (∃ m, client.VideoResource r = .error m) ↔ r.status ≠ 200)
    ∧ (∀ r : APIResponse GLiveCheckResult,
      (∃ m, client.GLiveCheck r = .error m) ↔ r.status ≠ 200) := by
  refine ⟨fun r => ?_, fun r => ?_, fun r => ?_, fun r hr => ?_,
    fun r hr hres => ?_, fun r items hr hres => ?_, fun r => ?_, fun r => ?_⟩
  · by_cases h : r.status = 0 <;> simp [client.GStudy, h]
  · by_cases h : r.status = 0 <;> simp [client.GStudySyllabus, h]
  · by_cases h : r.status = 0 <;> simp [client.EpStudy, h]
  · simp [client.EpStudySyllabus, hr]
  · simp [client.EpStudySyllabus, hr, hres]
  · simp [client.EpStudySyllabus, hr, hres]
  · by_cases h : r.status = 200 <;> simp [client.VideoResource, h]
  · by_cases h : r.status = 200 <;> simp [client.GLiveCheck, h]

/-- Witness for C1 (amended) at concrete decoded responses. -/
theorem gateway_status_checks_w :
    (5 : Int) ≠ 0
    ∧ client.EpStudySyllabus { status := 5, message := "m".toList, result := none }
      = .error ("API error: ".toList ++ "m".toList) :=
  ⟨by decide, gateway_status_checks.2.2.2.1
    { status := 5, message := "m".toList, result := none } (by decide)⟩

/-- Characters of a replaced string: each is the dash or an original
character that is not the replaced one. -/
theorem mem_replaceAllChar {c : Char} {l : Str} {old : Char}
    (h : c ∈ replaceAllChar l old) : c = '-' ∨ (c ∈ l ∧ c ≠ old) := by
  unfold replaceAllChar at h
  rcases List.mem_map.mp h with ⟨d, hd, hmap⟩
  by_cases hdo : d = old
  · left
    rw [← hmap, if_pos hdo]
  · right
    rw [← hmap, if_neg hdo]
    exact ⟨hd, hdo⟩

/-- Characters surviving the full replacement fold: each is the dash or an
original character not among the replaced ones. -/
theorem mem_foldl_replaceAllChar :
    ∀ (order l : Str) (c : Char), c ∈ order.foldl replaceAllChar l →
      c = '-' ∨ (c ∈ l ∧ c ∉ order) := by
  intro order
  induction order with
  | nil => exact fun l c h => Or.inr ⟨h, by simp⟩
  | cons o os ih =>
    intro l c h
    rw [List.foldl_cons] at h
    rcases ih (replaceAllChar l o) c h with h1 | ⟨h2, h3⟩
    · exact Or.inl h1
    · rcases mem_replaceAllChar h2 with h4 | ⟨h5, h6⟩
      · exact Or.inl h4
      · refine Or.inr ⟨h5, ?_⟩
        simp only [List.mem_cons, not_or]
        exact ⟨h6, h3⟩

/-- The `dropWhile` of a list is a suffix: it equals a `drop`. -/
theorem dropWhile_eq_drop_len (p : Char → Bool) :
    ∀ l : Str, l.dropWhile p = l.drop (l.takeWhile p).length := by
  intro l
  induction l with
  | nil => rfl
  | cons a t ih =>
    by_cases h : p a
    · simp [List.dropWhile_cons, List.takeWhile_cons, h, ih]
    · simp [List.dropWhile_cons, List.takeWhile_cons, h]

/-- The `trimRight` of a list is a prefix of it: it equals a `take`. -/
theorem trimRight_eq_take (l : Str) : ∃ n, trimRight l = l.take n := by
  refine ⟨l.length - (l.reverse.takeWhile isSpaceOrDot).length, ?_⟩
  unfold trimRight
  rw [dropWhile_eq_drop_len isSpaceOrDot l.reverse, List.reverse_drop,
    List.reverse_reverse, List.length_reverse]

/-- The head of a `take`, when present, is the head of the list. -/
theorem head?_take_eq_some {l : Str} {n : Nat} {c : Char}
    (h : (l.take n).head? = some c) : l.head? = some c := by
  cases n with
  | zero => simp at h
  | succ m =>
    cases l with
    | nil => simp at h
    | cons a t => simpa using h

/-- The head of a `dropWhile`, when present, fails the predicate. -/
theorem head?_dropWhile_false {p : Char → Bool} :
    ∀ {l : Str} {c : Char}, (l.dropWhile p).head? = some c → p c = false := by
  intro l
  induction l with
  | nil => intro c h; simp at h
  | cons a t ih =>
    intro c h
    by_cases hp : p a
    · rw [List.dropWhile_cons_of_pos hp] at h
      exact ih h
    · rw [List.dropWhile_cons_of_neg hp] at h
      simp at h
      rw [← h]
      exact Bool.eq_false_iff.mpr hp

/-- The last element of a `trimRight`, when present, fails the cutset. -/
theorem getLast?_trimRight_false {l : Str} {c : Char}
    (h : (trimRight l).getLast? = some c) : isSpaceOrDot c = false := by
  unfold trimRight at h
  rw [List.getLast?_reverse] at h
  exact head?_dropWhile_false h

/-- The head of a `trimCut`, when present, fails the cutset. -/
theorem head?_trimCut_false {l : Str} {c : Char}
    (h : (trimCut l).head? = some c) : isSpaceOrDot c = false := by
  unfold trimCut at h
  obtain ⟨n, hn⟩ := trimRight_eq_take (trimLeft l)
  rw [hn] at h
  exact head?_dropWhile_false (head?_take_eq_some h)

/-- Membership in `trimRight` implies membership in the argument. -/
theorem mem_trimRight {l : Str} {c : Char} (h : c ∈ trimRight l) : c ∈ l := by
  unfold trimRight at h
  rw [List.mem_reverse] at h
  exact List.mem_reverse.mp ((List.dropWhile_sublist _).mem h)

/-- Membership in `trimCut` implies membership in the argument. -/
theorem mem_trimCut {l : Str} {c : Char} (h : c ∈ trimCut l) : c ∈ l := by
  unfold trimCut trimLeft at h
  exact (List.dropWhile_sublist _).mem (mem_trimRight h)

/-- Applying `trimRight` never lengthens a list. -/
theorem length_trimRight_le (l : Str) : (trimRight l).length ≤ l.length := by
  unfold trimRight
  rw [List.length_reverse]
  calc (l.reverse.dropWhile isSpaceOrDot).length
      ≤ l.reverse.length := (List.dropWhile_sublist _).length_le
    _ = l.length := List.length_reverse _

/-- The sanitizer result is the trimmed replacement, or its truncation to
100 followed by a right re-trim. -/
theorem sanitizeWith_cases (order s : Str) :
    (sanitizeWith order s = trimCut (order.foldl replaceAllChar s)
      ∧ (trimCut (order.foldl replaceAllChar s)).length ≤ 100)
    ∨ sanitizeWith order s
        = trimRight ((trimCut (order.foldl replaceAllChar s)).take 100) := by
  unfold sanitizeWith
  by_cases h : (trimCut (order.foldl replaceAllChar s)).length > 100
  · right
    simp only [if_pos h]
  · left
    exact ⟨by simp only [if_neg h], by omega⟩

/-- C4: for every input, the sanitizer output contains none of the nine
banned characters, has length at most 100, and has no leading or trailing
space or dot — also after truncation to 100. -/
theorem sanitizeFileName_safe (s : Str) :
    (∀ c ∈ sanitizeFileName s, c ∉ bannedChars)
    ∧ (sanitizeFileName s).length ≤ 100
    ∧ (∀ c, (sanitizeFileName s).head? = some c → isSpaceOrDot c = false)
    ∧ (∀ c, (sanitizeFileName s).getLast? = some c → isSpaceOrDot c = false) := by
  have hnotb : ∀ c ∈ trimCut (bannedChars.foldl replaceAllChar s),
      c ∉ bannedChars := by
    intro c hc hbanned
    rcases mem_foldl_replaceAllChar bannedChars s c (mem_trimCut hc) with
      h1 | ⟨_, h2⟩
    · rw [h1] at hbanned
      exact absurd hbanned (by decide)
    · exact h2 hbanned
  rcases sanitizeWith_cases bannedChars s with ⟨heq, hlen⟩ | heq <;>
    rw [sanitizeFileName, heq]
  · refine ⟨hnotb, hlen, ?_, ?_⟩
    · exact fun c hc => head?_trimCut_false hc
    · intro c hc
      rw [trimCut] at hc
      exact getLast?_trimRight_false hc
  · refine ⟨?_, ?_, ?_, ?_⟩
    · intro c hc
      exact hnotb c ((List.take_sublist _ _).mem (mem_trimRight hc))
    · calc (trimRight ((trimCut (bannedChars.foldl replaceAllChar s)).take 100)).length
          ≤ ((trimCut (bannedChars.foldl replaceAllChar s)).take 100).length :=
            length_trimRight_le _
        _ ≤ 100 := by
            rw [List.length_take]
            exact min_le_left _ _
    · intro c hc
      obtain ⟨n, hn⟩ := trimRight_eq_take
        ((trimCut (bannedChars.foldl replaceAllChar s)).take 100)
      rw [hn] at hc
      exact head?_trimCut_false (head?_take_eq_some (head?_take_eq_some hc))
    · exact fun c hc => getLast?_trimRight_false hc

/-- Witness for C4 at a concrete input with banned characters and
trailing cutset characters. -/
theorem sanitizeFileName_safe_w :
    ('a' ∉ bannedChars)
    ∧ (sanitizeFileName " a/b. ".toList).length ≤ 100
    ∧ isSpaceOrDot 'a' = false :=
  ⟨(sanitizeFileName_safe " a/b. ".toList).1 'a' (by decide),
    (sanitizeFileName_safe " a/b. ".toList).2.1,
    (sanitizeFileName_safe " a/b. ".toList).2.2.1 'a' (by decide)⟩

/-- Single-character replacements commute. -/
theorem replaceAllChar_comm (l : Str) (a b : Char) :
    replaceAllChar (replaceAllChar l a) b
      = replaceAllChar (replaceAllChar l b) a := by
  unfold replaceAllChar
  rw [List.map_map, List.map_map]
  congr 1
  funext x
  by_cases hxa : x = a <;> by_cases hxb : x = b <;>
    by_cases hda : ('-' : Char) = a <;> by_cases hdb : ('-' : Char) = b <;>
    simp_all [Function.comp]

/-- The replacement fold is invariant under permuting the replacement
order. -/
theorem foldl_replaceAllChar_perm {o1 o2 : Str} (h : o1.Perm o2) :
    ∀ s : Str, o1.foldl replaceAllChar s = o2.foldl replaceAllChar s := by
  induction h with
  | nil => exact fun s => rfl
  | cons x _ ih =>
    intro s
    simp only [List.foldl_cons]
    exact ih _
  | swap x y l =>
    intro s
    simp only [List.foldl_cons]
    rw [replaceAllChar_comm]
  | trans _ _ ih1 ih2 =>
    intro s
    rw [ih1, ih2]

/-- C5: the sanitizer is deterministic in spite of Go's varying map
iteration order — replacing the banned characters in any order yields the
same output for every input. -/
theorem sanitizeWith_deterministic (order : Str) (h : order.Perm bannedChars)
    (s : Str) : sanitizeWith order s = sanitizeFileName s := by
  unfold sanitizeFileName sanitizeWith
  rw [foldl_replaceAllChar_perm h]

/-- Witness for C5 at the reversed replacement order and a concrete
input. -/
theorem sanitizeWith_deterministic_w :
    bannedChars.reverse.Perm bannedChars
    ∧ sanitizeWith bannedChars.reverse "a:b".toList
      = sanitizeFileName "a:b".toList :=
  ⟨bannedChars.reverse_perm,
    sanitizeWith_deterministic bannedChars.reverse
      bannedChars.reverse_perm "a:b".toList⟩

/-- Scanning may skip a prefix at whose positions the matcher fails. -/
theorem findFirst_append_none (m : Str → Option Str) :
    ∀ (pre rest : Str),
      (∀ j < pre.length, m ((pre ++ rest).drop j) = none) →
      findFirst m (pre ++ rest) = findFirst m rest := by
  intro pre
  induction pre with
  | nil => exact fun rest _ => rfl
  | cons c pre' ih =>
    intro rest h
    have h0 : m (c :: (pre' ++ rest)) = none := by
      have := h 0 (by simp)
      simpa using this
    rw [List.cons_append, findFirst, h0]
    exact ih rest (fun j hj => by
      have := h (j + 1) (by simpa using Nat.succ_lt_succ hj)
      simpa using this)

/-- Scanning a string at all of whose positions the matcher fails yields
nothing. -/
theorem findFirst_none (m : Str → Option Str) :
    ∀ l : Str, (∀ j, m (l.drop j) = none) → findFirst m l = none := by
  intro l
  induction l with
  | nil => exact fun _ => rfl
  | cons c cs ih =>
    intro h
    rw [findFirst, show m (c :: cs) = none from by simpa using h 0]
    exact ih (fun j => by simpa using h (j + 1))

/-- Scanning succeeds immediately when the matcher fires at the head. -/
theorem findFirst_cons_some (m : Str → Option Str) (c : Char) (cs N : Str)
    (h : m (c :: cs) = some N) : findFirst m (c :: cs) = some N := by
  rw [findFirst, h]

/-- A maximal run of predicate-satisfying characters followed by a
non-satisfying head is captured whole by `takeWhile`. -/
theorem takeWhile_append_run {p : Char → Bool} :
    ∀ (N post : Str), (∀ c ∈ N, p c = true) →
      (∀ c, post.head? = some c → p c = false) →
      (N ++ post).takeWhile p = N := by
  intro N
  induction N with
  | nil =>
    intro post _ hpost
    cases post with
    | nil => rfl
    | cons d post' =>
      simp only [List.nil_append, List.takeWhile_cons, hpost d rfl]
      rfl
  | cons a N' ih =>
    intro post hN hpost
    simp only [List.cons_append, List.takeWhile_cons,
      hN a (List.mem_cons_self _ _)]
    rw [if_pos trivial, ih post (fun c hc => hN c (List.mem_cons_of_mem a hc)) hpost]

/-- Stripping a literal prefix from a string that starts with it. -/
theorem stripPre_append (key rest : Str) :
    stripPre key (key ++ rest) = some rest := by
  unfold stripPre
  rw [List.take_left, List.drop_left, if_pos rfl]

/-- The key-plus-digits matcher fires on its own pattern with a maximal
digit run. -/
theorem matchKeyAt_append (key N post : Str) (hN : N ≠ [])
    (hdig : ∀ c ∈ N, c.isDigit = true)
    (hpost : ∀ c, post.head? = some c → c.isDigit = false) :
    matchKeyAt key (key ++ (N ++ post)) = some N := by
  unfold matchKeyAt
  rw [stripPre_append]
  simp only
  rw [takeWhile_append_run N post hdig hpost, if_neg hN]

/-- The `course_id=` literal cannot match where the `courseId=` pattern
matches: the two literals differ. -/
theorem matchKeyAt_key1_on_key2 (N post : Str) (hN : N ≠ []) :
    matchKeyAt paramKey1 (paramKey2 ++ (N ++ post)) = none := by
  cases N with
  | nil => exact absurd rfl hN
  | cons d N' =>
    unfold matchKeyAt stripPre
    rw [if_neg ?hne]
    case hne =>
      intro hteq
      have hteq' : ('c' :: 'o' :: 'u' :: 'r' :: 's' :: 'e' :: 'I' :: 'd'
          :: '=' :: [d]) = paramKey1 := hteq
      simp only [paramKey1, List.cons.injEq] at hteq'
      exact absurd hteq'.2.2.2.2.2.2.1 (by decide)

/-- The parameter matcher fires on a `course_id=` occurrence. -/
theorem matchParamAt_key1 (N post : Str) (hN : N ≠ [])
    (hdig : ∀ c ∈ N, c.isDigit = true)
    (hpost : ∀ c, post.head? = some c → c.isDigit = false) :
    matchParamAt (paramKey1 ++ (N ++ post)) = some N := by
  unfold matchParamAt
  rw [matchKeyAt_append paramKey1 N post hN hdig hpost]

/-- The parameter matcher fires on a `courseId=` occurrence. -/
theorem matchParamAt_key2 (N post : Str) (hN : N ≠ [])
    (hdig : ∀ c ∈ N, c.isDigit = true)
    (hpost : ∀ c, post.head? = some c → c.isDigit = false) :
    matchParamAt (paramKey2 ++ (N ++ post)) = some N := by
  unfold matchParamAt
  rw [matchKeyAt_key1_on_key2 N post hN,
    matchKeyAt_append paramKey2 N post hN hdig hpost]

/-- C6: a URL whose leftmost `course_id=`/`courseId=` occurrence carries
the maximal digit run `N` yields `N` (whether or not a `/course/` segment
is also present — the query parameter takes precedence); a URL with no
parameter occurrence whose leftmost `/course/` occurrence carries the
maximal digit run `N` yields `N`; a URL matching none of the patterns
yields the not-found error. -/
theorem extractCourseID_spec :
    (∀ (pre key N post : Str), (key = paramKey1 ∨ key = paramKey2) →
      (∀ j < pre.length,
        matchParamAt ((pre ++ (key ++ (N ++ post))).drop j) = none) →
      N ≠ [] → (∀ c ∈ N, c.isDigit = true) →
      (∀ c, post.head? = some c → c.isDigit = false) →
      extractCourseID (pre ++ (key ++ (N ++ post))) = .ok N)
    ∧ (∀ (pre N post : Str),
      (∀ j, matchParamAt ((pre ++ (pathKey ++ (N ++ post))).drop j) = none) →
      (∀ j < pre.length,
        matchKeyAt pathKey ((pre ++ (pathKey ++ (N ++ post))).drop j) = none) →
      N ≠ [] → (∀ c ∈ N, c.isDigit = true) →
      (∀ c, post.head? = some c → c.isDigit = false) →
      extractCourseID (pre ++ (pathKey ++ (N ++ post))) = .ok N)
    ∧ (∀ url : Str,
      (∀ j, matchParamAt (url.drop j) = none) →
      (∀ j, matchKeyAt pathKey (url.drop j) = none) →
      extractCourseID url = .error "course ID not found in URL".toList) := by
  refine ⟨?_, ?_, ?_⟩
  · intro pre key N post hkey hleft hN hdig hpost
    unfold extractCourseID
    have h1 : findFirst matchParamAt (pre ++ (key ++ (N ++ post)))
        = some N := by
      rw [findFirst_append_none matchParamAt pre _ hleft]
      rcases hkey with rfl | rfl
      · exact findFirst_cons_some _ _ _ _ (matchParamAt_key1 N post hN hdig hpost)
      · exact findFirst_cons_some _ _ _ _ (matchParamAt_key2 N post hN hdig hpost)
    rw [h1]
  · intro pre N post hparam hleft hN hdig hpost
    unfold extractCourseID
    rw [findFirst_none matchParamAt _ hparam]
    have h2 : findFirst (matchKeyAt pathKey) (pre ++ (pathKey ++ (N ++ post)))
        = some N := by
      rw [findFirst_append_none (matchKeyAt pathKey) pre _ hleft]
      exact findFirst_cons_some _ _ _ _
        (matchKeyAt_append pathKey N post hN hdig hpost)
    rw [h2]
  · intro url hparam hpath
    unfold extractCourseID
    rw [findFirst_none matchParamAt _ hparam,
      findFirst_none (matchKeyAt pathKey) _ hpath]

/-- Witness for C6 at a concrete URL with the parameter pattern. -/
theorem extractCourseID_spec_w :
    extractCourseID ("https://gaodun.com/?".toList
      ++ (paramKey1 ++ ("17244".toList ++ "&x=1".toList)))
      = .ok "17244".toList :=
  extractCourseID_spec.1 "https://gaodun.com/?".toList paramKey1
    "17244".toList "&x=1".toList (Or.inl rfl) (by decide) (by decide)
    (by decide)
    (fun c hc => by
      rw [show c = '&' from (Option.some.inj hc).symm]
      decide)
